import Mathlib

/-!
Verification development for the directional flux-computation engine of the
AthenaK-style MHD solver (file `src/mhd/mhd_calc_fluxes.cpp`), the
Orszag-Tang problem generator (`src/pgen/orszag_tang.cpp`) and the particle
problem generator (`src/pgen/part_static_turb.cpp`).

The C++ kernels are shallowly embedded:

* `MHDCalcFlux` is modelled as a function from a configuration record to the
  sequential trace of observable events (scratch-size computations, calls of
  the reconstruction routines, calls of the Riemann solvers) together with
  the returned `TaskStatus`.  The bodies of the reconstruction routines
  (`reconstruct/dc.cpp`, `plm.cpp`, `ppm.cpp`) and of the Riemann solvers
  (`rsolvers/advect_mhd.cpp`, `llf_mhd.cpp`) are not part of the given
  sources; only the fact that a solver call is the unique writer of the
  flux/EMF arrays of its direction is used, so those calls appear as opaque
  trace events carrying their exact index arguments from the call sites.
* The ping-pong permutation of the six scratch buffers in the direction-2/3
  sweeps is modelled separately and exactly, as a store mapping buffer names
  to optional abstract line values, with the reconstruction outputs taken as
  arbitrary functions of the loop index (they are deterministic functions of
  the loop index for a fixed parallel unit).
* The problem generators are modelled as pure functions over an arbitrary
  field equipped with opaque `sin`/`cos`/`sqrt`/`pi` operations (mirroring
  the floating-point math library) resp. over a linear ordered field.
-/

/-- The spatial direction of a sweep (x1, x2, x3). -/
inductive Dir
  | x1
  | x2
  | x3
deriving DecidableEq

/-- Modelled from the spec: the `ReconstructionMethod` enum is declared
outside the given sources.  The three selectors handled by the switch
statements in `MHDCalcFlux` are `dc`, `plm` and `ppm`; `unk` stands for any
further enum value, which falls into the `default:` case of each switch. -/
inductive ReconstructionMethod
  | dc
  | plm
  | ppm
  | unk
deriving DecidableEq

/-- Modelled from the spec: the `MHD_RSolver` enum is declared outside the
given sources.  The two selectors handled by the switch statements in
`MHDCalcFlux` are `advect` and `llf`; `unk` stands for any further enum
value (e.g. the commented-out `hllc`, `roe`), which falls into the
`default:` case of each switch. -/
inductive MHD_RSolver
  | advect
  | llf
  | unk
deriving DecidableEq

/-- Modelled from the spec: the `TaskStatus` enum is declared outside the
given sources; the spec says the engine produces "a status signal indicating
whether the computation ran to completion", so the type has a `complete`
value and values signaling failure/incompleteness. -/
inductive TaskStatus
  | complete
  | incomplete
  | fail
deriving DecidableEq

/-- Observable events of one invocation of `MHDCalcFlux`, in program order:

* `scrAlloc d size` — the per-direction scratch-size computation
  `scr_size = ...` preceding the `par_for_outer` dispatch for direction `d`;
* `recon d method m k j il iu` — one execution of a non-default case of a
  reconstruction switch for direction `d` at parallel indices `(m,k,j)` with
  index range `il..iu` (each such case calls the selected routine once for
  the fluid state `w0` and once for the field `bcc0`, with identical index
  arguments, so the pair is one event);
* `solve d solver m k j il iu` — one execution of a non-default case of a
  Riemann-solver switch; these calls are the only writers of the flux and
  EMF output arrays `flux<d>`/`emf<d>` of direction `d`. -/
inductive FluxEvent
  | scrAlloc (d : Dir) (size : Nat)
  | recon (d : Dir) (method : ReconstructionMethod) (m k j il iu : Int)
  | solve (d : Dir) (solver : MHD_RSolver) (m k j il iu : Int)
deriving DecidableEq

/-- Direction an event belongs to. -/
def eventDir : FluxEvent → Dir
  | .scrAlloc d _ => d
  | .recon d _ _ _ _ _ _ => d
  | .solve d _ _ _ _ _ _ => d

/-- True exactly on `scrAlloc` events. -/
def isScrAlloc : FluxEvent → Bool
  | .scrAlloc _ _ => true
  | _ => false

/-- True exactly on `recon` events. -/
def isRecon : FluxEvent → Bool
  | .recon _ _ _ _ _ _ _ => true
  | _ => false

/-- True exactly on `solve` events, i.e. on the events that write flux/EMF
output arrays. -/
def isSolve : FluxEvent → Bool
  | .solve _ _ _ _ _ _ _ => true
  | _ => false

/-- True on `solve` events of direction `d`: writes to `flux<d>`/`emf<d>`. -/
def writesFluxOf (d : Dir) (e : FluxEvent) : Bool :=
  match e with
  | .solve d2 _ _ _ _ _ _ => d2 = d
  | _ => false

/-- Inclusive integer range `lo..hi` (empty when `hi < lo`), the index set of
a C `for` loop `for (x=lo; x<=hi; ++x)`. -/
def intRange (lo hi : Int) : List Int :=
  (List.range (hi + 1 - lo).toNat).map (fun n : Nat => lo + (n : Int))

/-- Sequentialization of a parallel-for dispatch: concatenate, in index
order, the event lists of the dispatched units. -/
def seqFor (f : Int → List FluxEvent) : List Int → List FluxEvent
  | [] => []
  | a :: as => f a ++ seqFor f as

/-- Inputs of one invocation of `MHD::MHDCalcFlux`, read from `pmy_pack`,
from the member selectors and from the mesh:

* `is..ke` — active-cell index bounds `mb_cells.is` etc.;
* `nx1`, `ng` — `mb_cells.nx1` and `mb_cells.ng` (ghost width), giving
  `ncells1 = nx1 + 2*ng`;
* `nmhd_local` — the value of the local variable declared by line 38,
  `int nmhd = nmhd;`.  The initializer names the local variable being
  declared (which shadows the member `nmhd` from its point of declaration),
  so the local is initialized from its own indeterminate value; the model
  therefore takes it as an unconstrained input rather than as the member
  field `nmhd`;
* `nscalars`, `nmb` — member `nscalars` and `pmy_pack->nmb_thispack`;
* `recon_method`, `rsolver_method` — the two selectors;
* `nx2gt1`, `nx3gt1` — `pmy_pack->pmesh->nx2gt1` / `nx3gt1`. -/
structure FluxConfig where
  is : Int
  ie : Int
  js : Int
  je : Int
  ks : Int
  ke : Int
  nx1 : Int
  ng : Int
  nmhd_local : Int
  nscalars : Int
  nmb : Int
  recon_method : ReconstructionMethod
  rsolver_method : MHD_RSolver
  nx2gt1 : Bool
  nx3gt1 : Bool
deriving DecidableEq

/-- Events of one execution of a reconstruction switch (lines 66-82,
144-160, 224-240): each recognized selector emits one reconstruction event
with the index arguments of the call site; the `default:` case emits
nothing (`break;` only). -/
def reconEvents (d : Dir) (rm : ReconstructionMethod) (m k j il iu : Int) :
    List FluxEvent :=
  match rm with
  | .dc => [.recon d .dc m k j il iu]
  | .plm => [.recon d .plm m k j il iu]
  | .ppm => [.recon d .ppm m k j il iu]
  | .unk => []

/-- Events of one execution of a Riemann-solver switch (lines 87-103,
165-181, 245-261): each recognized selector emits one solve event with the
index arguments of the call site; the `default:` case emits nothing. -/
def solveEvents (d : Dir) (rs : MHD_RSolver) (m k j il iu : Int) :
    List FluxEvent :=
  match rs with
  | .advect => [.solve d .advect m k j il iu]
  | .llf => [.solve d .llf m k j il iu]
  | .unk => []

/-- Body of one direction-1 parallel unit (lines 58-105), dispatched per
`(m,k,j)`: reconstruct over `is-1..ie+1`, barrier, then solve over
`is..ie+1` (the solver calls at lines 90/93 pass `is, ie+1`). -/
def dir1UnitEvents (cfg : FluxConfig) (m k j : Int) : List FluxEvent :=
  reconEvents .x1 cfg.recon_method m k j (cfg.is - 1) (cfg.ie + 1) ++
  solveEvents .x1 cfg.rsolver_method m k j cfg.is (cfg.ie + 1)

/-- Body of one iteration of the sequential `j` loop of a direction-2 unit
(lines 128-184): reconstruct over `is-1..ie+1`, barrier, then — only when
`j > js-1` (line 164) — solve over `is-1..ie+1` (lines 168/171 pass
`is-1, ie+1`). -/
def dir2StepEvents (cfg : FluxConfig) (m k j : Int) : List FluxEvent :=
  reconEvents .x2 cfg.recon_method m k j (cfg.is - 1) (cfg.ie + 1) ++
  (if cfg.js - 1 < j then
    solveEvents .x2 cfg.rsolver_method m k j (cfg.is - 1) (cfg.ie + 1)
  else [])

/-- Body of one direction-2 parallel unit (lines 119-185), dispatched per
`(m,k)`: the sequential loop `for (j=js-1; j<=je+1; ++j)`. -/
def dir2UnitEvents (cfg : FluxConfig) (m k : Int) : List FluxEvent :=
  seqFor (fun j => dir2StepEvents cfg m k j) (intRange (cfg.js - 1) (cfg.je + 1))

/-- Body of one iteration of the sequential `k` loop of a direction-3 unit
(lines 208-264): reconstruct over `is-1..ie+1`, barrier, then — only when
`k > ks-1` (line 244) — solve over `is-1..ie+1`. -/
def dir3StepEvents (cfg : FluxConfig) (m j k : Int) : List FluxEvent :=
  reconEvents .x3 cfg.recon_method m k j (cfg.is - 1) (cfg.ie + 1) ++
  (if cfg.ks - 1 < k then
    solveEvents .x3 cfg.rsolver_method m k j (cfg.is - 1) (cfg.ie + 1)
  else [])

/-- Body of one direction-3 parallel unit (lines 199-265), dispatched per
`(m,j)`: the sequential loop `for (k=ks-1; k<=ke+1; ++k)`. -/
def dir3UnitEvents (cfg : FluxConfig) (m j : Int) : List FluxEvent :=
  seqFor (fun k => dir3StepEvents cfg m j k) (intRange (cfg.ks - 1) (cfg.ke + 1))

/-- Events of the direction-1 (i-direction) block, lines 50-106: the
`scr_size` computation `(shmem_size(nvars,ncells1) + shmem_size(3,ncells1))
* 2` (lines 50-51) followed by the `par_for_outer` dispatch over
`m = 0..nmb-1`, `k = ks..ke`, `j = js..je` (line 57), with
`nvars = nmhd + nscalars` (line 39, from the indeterminate local `nmhd` of
line 38) and `ncells1 = nx1 + 2*ng` (line 36).  `shm` is the external
`ScrArray2D<Real>::shmem_size` function (Kokkos, not part of the sources),
applied exactly as the source applies it. -/
def dir1Events (shm : Int → Int → Nat) (cfg : FluxConfig) : List FluxEvent :=
  FluxEvent.scrAlloc Dir.x1
    ((shm (cfg.nmhd_local + cfg.nscalars) (cfg.nx1 + 2 * cfg.ng) +
      shm 3 (cfg.nx1 + 2 * cfg.ng)) * 2) ::
    seqFor (fun m =>
      seqFor (fun k =>
        seqFor (fun j => dir1UnitEvents cfg m k j) (intRange cfg.js cfg.je))
        (intRange cfg.ks cfg.ke))
      (intRange 0 (cfg.nmb - 1))

/-- Events of the direction-2 (j-direction) block, lines 112-186: the
`scr_size` computation with multiplier 3 (lines 112-113) followed by the
`par_for_outer` dispatch over `m = 0..nmb-1`, `k = ks..ke` (line 118). -/
def dir2Events (shm : Int → Int → Nat) (cfg : FluxConfig) : List FluxEvent :=
  FluxEvent.scrAlloc Dir.x2
    ((shm (cfg.nmhd_local + cfg.nscalars) (cfg.nx1 + 2 * cfg.ng) +
      shm 3 (cfg.nx1 + 2 * cfg.ng)) * 3) ::
    seqFor (fun m =>
      seqFor (fun k => dir2UnitEvents cfg m k) (intRange cfg.ks cfg.ke))
      (intRange 0 (cfg.nmb - 1))

/-- Events of the direction-3 (k-direction) block, lines 192-266: the
`scr_size` computation with multiplier 3 (lines 192-193) followed by the
`par_for_outer` dispatch over `m = 0..nmb-1`, `j = js..je` (line 198; the
order of the `k` and `j` loops is switched in this direction). -/
def dir3Events (shm : Int → Int → Nat) (cfg : FluxConfig) : List FluxEvent :=
  FluxEvent.scrAlloc Dir.x3
    ((shm (cfg.nmhd_local + cfg.nscalars) (cfg.nx1 + 2 * cfg.ng) +
      shm 3 (cfg.nx1 + 2 * cfg.ng)) * 3) ::
    seqFor (fun m =>
      seqFor (fun j => dir3UnitEvents cfg m j) (intRange cfg.js cfg.je))
      (intRange 0 (cfg.nmb - 1))

/-- Shallow embedding of `MHD::MHDCalcFlux` (lines 31-268): the trace of
observable events, in program order, together with the returned status.

Control flow: the direction-1 block always runs; the function returns
`TaskStatus::complete` right after it when `!nx2gt1` (line 107); otherwise
the direction-2 block runs and the function returns right after it when
`!nx3gt1` (line 187); otherwise the direction-3 block runs and the function
returns at line 267. -/
def MHDCalcFlux (shm : Int → Int → Nat) (cfg : FluxConfig) :
    List FluxEvent × TaskStatus :=
  if cfg.nx2gt1 = false then (dir1Events shm cfg, TaskStatus.complete) else
  if cfg.nx3gt1 = false then
    (dir1Events shm cfg ++ dir2Events shm cfg, TaskStatus.complete)
  else
    (dir1Events shm cfg ++ dir2Events shm cfg ++ dir3Events shm cfg,
     TaskStatus.complete)

/-- Membership in an inclusive integer range. -/
theorem mem_intRange {lo hi x : Int} : x ∈ intRange lo hi ↔ lo ≤ x ∧ x ≤ hi := by
  constructor
  · intro h
    obtain ⟨n, hn, rfl⟩ := List.mem_map.mp h
    have hb := List.mem_range.mp hn
    omega
  · intro h
    refine List.mem_map.mpr ⟨(x - lo).toNat, List.mem_range.mpr ?_, ?_⟩ <;> omega

/-- Membership in a sequentialized dispatch. -/
theorem mem_seqFor {f : Int → List FluxEvent} {l : List Int} {e : FluxEvent} :
    e ∈ seqFor f l ↔ ∃ a ∈ l, e ∈ f a := by
  induction l with
  | nil => simp [seqFor]
  | cons a as ih => simp [seqFor, ih, List.mem_append, or_and_right, exists_or]

/-!
Ping-pong scratch-buffer model for directions 2 and 3.

A direction-2 unit holds six scratch arrays `scr1..scr6` (lines 121-126)
and on every iteration of its sequential `j` loop selects roles for them by
the parity of the loop counter (lines 129-141): the defaults are
`wl = scr1`, `wl_jp1 = scr2`, `wr = scr3`, `bl = scr4`, `bl_jp1 = scr5`,
`br = scr6`, and when `(j%2) == 0` the pairs `(wl, wl_jp1)` and
`(bl, bl_jp1)` are swapped.  The direction-3 unit is line-for-line the same
with loop counter `k` and start index `ks` (lines 201-221), so one model
covers both.  C++ `%` truncates toward zero, which `Int.tmod` matches.

The reconstruction switch of the iteration writes `wl_jp1` and `wr` from
`w0` and `bl_jp1` and `br` from `bcc0` (lines 147-148 etc.); the
reconstruction routines themselves are external to the sources, so their
per-iteration outputs are taken as arbitrary functions `wL wR bL bR` of the
loop counter (for a fixed unit they are deterministic functions of it).
The store maps buffer names to the value last written there, `none` for a
buffer not yet written.
-/

/-- The six scratch arrays `scr1..scr6` of a direction-2/3 parallel unit. -/
inductive Scr
  | s1
  | s2
  | s3
  | s4
  | s5
  | s6
deriving DecidableEq

/-- Buffer playing the `wl` role at loop counter `j` (lines 130, 136-137). -/
def wl_buf (j : Int) : Scr := if j.tmod 2 = 0 then .s2 else .s1

/-- Buffer playing the `wl_jp1` role at loop counter `j` (lines 131, 138). -/
def wl_jp1_buf (j : Int) : Scr := if j.tmod 2 = 0 then .s1 else .s2

/-- Buffer playing the `wr` role: always `scr3` (line 132). -/
def wr_buf : Scr := .s3

/-- Buffer playing the `bl` role at loop counter `j` (lines 133, 139). -/
def bl_buf (j : Int) : Scr := if j.tmod 2 = 0 then .s5 else .s4

/-- Buffer playing the `bl_jp1` role at loop counter `j` (lines 134, 140). -/
def bl_jp1_buf (j : Int) : Scr := if j.tmod 2 = 0 then .s4 else .s5

/-- Buffer playing the `br` role: always `scr6` (line 135). -/
def br_buf : Scr := .s6

/-- Effect on the scratch store of the reconstruction phase of one loop
iteration at counter `j`: the selected routine writes the one-step-ahead
left states `qL[j+1]` into `wl_jp1`/`bl_jp1` and the right states `qR[j]`
into `wr`/`br`; every other buffer keeps its previous content. -/
def pingpongReconStep {α : Type} (wL wR bL bR : Int → α) (j : Int)
    (st : Scr → Option α) : Scr → Option α :=
  fun s =>
    if s = wl_jp1_buf j then some (wL j)
    else if s = wr_buf then some (wR j)
    else if s = bl_jp1_buf j then some (bL j)
    else if s = br_buf then some (bR j)
    else st s

/-- Scratch store after the reconstruction phases of the first `n` loop
iterations (counters `js-1, js, ..., js-1+(n-1)`), starting from `st0`. -/
def pingpongRun {α : Type} (wL wR bL bR : Int → α) (js : Int) :
    Nat → (Scr → Option α) → Scr → Option α
  | 0, st0 => st0
  | n + 1, st0 =>
    pingpongReconStep wL wR bL bR (js - 1 + (n : Int))
      (pingpongRun wL wR bL bR js n st0)

/-- Truncating remainder by two vanishes exactly on even integers. -/
theorem tmod_two_eq_zero_iff_even (j : Int) : j.tmod 2 = 0 ↔ Even j := by
  rw [← Int.dvd_iff_tmod_eq_zero, ← even_iff_two_dvd]

/-- The buffer receiving `qL[j+1]` at counter `j` is the buffer read as
`wl` at counter `j+1`. -/
theorem wl_jp1_buf_eq_wl_buf_succ (j : Int) : wl_jp1_buf j = wl_buf (j + 1) := by
  unfold wl_jp1_buf wl_buf
  by_cases h : Even j
  · rw [if_pos ((tmod_two_eq_zero_iff_even j).mpr h),
      if_neg (by rw [tmod_two_eq_zero_iff_even, Int.even_add_one]; exact not_not_intro h)]
  · rw [if_neg (fun hc => h ((tmod_two_eq_zero_iff_even j).mp hc)),
      if_pos (by rw [tmod_two_eq_zero_iff_even, Int.even_add_one]; exact h)]

/-- The buffer receiving the field states `bL[j+1]` at counter `j` is the
buffer read as `bl` at counter `j+1`. -/
theorem bl_jp1_buf_eq_bl_buf_succ (j : Int) : bl_jp1_buf j = bl_buf (j + 1) := by
  unfold bl_jp1_buf bl_buf
  by_cases h : Even j
  · rw [if_pos ((tmod_two_eq_zero_iff_even j).mpr h),
      if_neg (by rw [tmod_two_eq_zero_iff_even, Int.even_add_one]; exact not_not_intro h)]
  · rw [if_neg (fun hc => h ((tmod_two_eq_zero_iff_even j).mp hc)),
      if_pos (by rw [tmod_two_eq_zero_iff_even, Int.even_add_one]; exact h)]

/-- The reconstruction phase at counter `j` does not touch the buffer read
as `wl` at counter `j` (its four writes go elsewhere). -/
theorem reconStep_skips_wl {α : Type} (wL wR bL bR : Int → α) (j : Int)
    (st : Scr → Option α) :
    pingpongReconStep wL wR bL bR j st (wl_buf j) = st (wl_buf j) := by
  unfold pingpongReconStep wl_buf wl_jp1_buf bl_jp1_buf wr_buf br_buf
  by_cases h : j.tmod 2 = 0 <;> simp [h]

/-- The reconstruction phase at counter `j` does not touch the buffer read
as `bl` at counter `j`. -/
theorem reconStep_skips_bl {α : Type} (wL wR bL bR : Int → α) (j : Int)
    (st : Scr → Option α) :
    pingpongReconStep wL wR bL bR j st (bl_buf j) = st (bl_buf j) := by
  unfold pingpongReconStep bl_buf wl_jp1_buf bl_jp1_buf wr_buf br_buf
  by_cases h : j.tmod 2 = 0 <;> simp [h]

/-- The reconstruction phase at counter `j` writes `qL[j+1]` into the
buffer read as `wl` at counter `j+1`. -/
theorem reconStep_writes_wl {α : Type} (wL wR bL bR : Int → α) (j : Int)
    (st : Scr → Option α) :
    pingpongReconStep wL wR bL bR j st (wl_buf (j + 1)) = some (wL j) := by
  rw [← wl_jp1_buf_eq_wl_buf_succ]
  unfold pingpongReconStep
  rw [if_pos rfl]

/-- The reconstruction phase at counter `j` writes `bL[j+1]` into the
buffer read as `bl` at counter `j+1`. -/
theorem reconStep_writes_bl {α : Type} (wL wR bL bR : Int → α) (j : Int)
    (st : Scr → Option α) :
    pingpongReconStep wL wR bL bR j st (bl_buf (j + 1)) = some (bL j) := by
  rw [← bl_jp1_buf_eq_bl_buf_succ]
  unfold pingpongReconStep wl_jp1_buf bl_jp1_buf wr_buf br_buf
  by_cases h : j.tmod 2 = 0 <;> simp [h]

/-- C1: for the direction-2 and direction-3 sequential sweeps, the buffer
that receives the reconstructed one-step-ahead ("next") state at a loop
step is exactly the buffer consumed as the "left" input at the following
step, with roles selected by the parity of the loop counter, and hence the
left state consumed at loop counter `js-1+n` (the step where a solve can
run, `n ≥ 1`) is identical to the one-step-ahead state reconstructed at the
previous step, for the fluid buffers and the field buffers alike: reading
the store after the reconstruction phase of step `js-1+n` at the `wl`/`bl`
buffer yields exactly the value `qL` deposited by step `js-1+n-1`, with no
recomputation.  The counter arithmetic covers every loop index of
`for (j=js-1; j<=je+1; ++j)` resp. `for (k=ks-1; k<=ke+1; ++k)`. -/
theorem mhd_c1_pingpong_left_state {α : Type} (wL wR bL bR : Int → α)
    (js : Int) (st0 : Scr → Option α) (n : Nat) (h : 1 ≤ n) :
    wl_jp1_buf (js - 1 + (n : Int) - 1) = wl_buf (js - 1 + (n : Int)) ∧
    bl_jp1_buf (js - 1 + (n : Int) - 1) = bl_buf (js - 1 + (n : Int)) ∧
    pingpongRun wL wR bL bR js (n + 1) st0 (wl_buf (js - 1 + (n : Int))) =
      some (wL (js - 1 + (n : Int) - 1)) ∧
    pingpongRun wL wR bL bR js (n + 1) st0 (bl_buf (js - 1 + (n : Int))) =
      some (bL (js - 1 + (n : Int) - 1)) := by
  obtain ⟨m, rfl⟩ : ∃ m, n = m + 1 := ⟨n - 1, by omega⟩
  have hj2 : js - 1 + ((m + 1 : Nat) : Int) - 1 = js - 1 + (m : Int) := by
    push_cast; ring
  have hj : js - 1 + ((m + 1 : Nat) : Int) = (js - 1 + (m : Int)) + 1 := by
    push_cast; ring
  simp only [pingpongRun]
  rw [hj2, hj]
  refine ⟨wl_jp1_buf_eq_wl_buf_succ _, bl_jp1_buf_eq_bl_buf_succ _, ?_, ?_⟩
  · rw [reconStep_skips_wl, reconStep_writes_wl]
  · rw [reconStep_skips_bl, reconStep_writes_bl]

/-- Witness for `mhd_c1_pingpong_left_state` at `js = 3`, `n = 1`, with
concrete reconstruction outputs over `Int` and an empty initial store. -/
theorem mhd_c1_pingpong_left_state_witness :
    (1 : Nat) ≤ 1 ∧
    (wl_jp1_buf (3 - 1 + ((1 : Nat) : Int) - 1) = wl_buf (3 - 1 + ((1 : Nat) : Int)) ∧
     bl_jp1_buf (3 - 1 + ((1 : Nat) : Int) - 1) = bl_buf (3 - 1 + ((1 : Nat) : Int)) ∧
     pingpongRun (fun j => j) (fun j => 2 * j) (fun j => 3 * j) (fun j => 4 * j) 3 (1 + 1)
       (fun _ => (none : Option Int)) (wl_buf (3 - 1 + ((1 : Nat) : Int))) =
       some (3 - 1 + ((1 : Nat) : Int) - 1) ∧
     pingpongRun (fun j => j) (fun j => 2 * j) (fun j => 3 * j) (fun j => 4 * j) 3 (1 + 1)
       (fun _ => (none : Option Int)) (bl_buf (3 - 1 + ((1 : Nat) : Int))) =
       some (3 * (3 - 1 + ((1 : Nat) : Int) - 1))) :=
  ⟨Nat.le_refl 1,
   mhd_c1_pingpong_left_state (fun j => j) (fun j => 2 * j) (fun j => 3 * j) (fun j => 4 * j)
     3 (fun _ => none) 1 (Nat.le_refl 1)⟩

/-- Every event emitted by a reconstruction switch carries its direction. -/
theorem reconEvents_dir {d : Dir} {rm : ReconstructionMethod} {m k j il iu : Int} :
    ∀ e ∈ reconEvents d rm m k j il iu, eventDir e = d := by
  intro e he
  cases rm <;> simp [reconEvents] at he <;> subst he <;> rfl

/-- Every event emitted by a Riemann-solver switch carries its direction. -/
theorem solveEvents_dir {d : Dir} {rs : MHD_RSolver} {m k j il iu : Int} :
    ∀ e ∈ solveEvents d rs m k j il iu, eventDir e = d := by
  intro e he
  cases rs <;> simp [solveEvents] at he <;> subst he <;> rfl

/-- Every event of a direction-1 unit has direction `x1`. -/
theorem dir1UnitEvents_dir {cfg : FluxConfig} {m k j : Int} :
    ∀ e ∈ dir1UnitEvents cfg m k j, eventDir e = .x1 := by
  intro e he
  rcases List.mem_append.mp he with h | h
  · exact reconEvents_dir e h
  · exact solveEvents_dir e h

/-- Every event of a direction-2 loop iteration has direction `x2`. -/
theorem dir2StepEvents_dir {cfg : FluxConfig} {m k j : Int} :
    ∀ e ∈ dir2StepEvents cfg m k j, eventDir e = .x2 := by
  intro e he
  rcases List.mem_append.mp he with h | h
  · exact reconEvents_dir e h
  · split at h
    · exact solveEvents_dir e h
    · simp at h

/-- Every event of a direction-3 loop iteration has direction `x3`. -/
theorem dir3StepEvents_dir {cfg : FluxConfig} {m j k : Int} :
    ∀ e ∈ dir3StepEvents cfg m j k, eventDir e = .x3 := by
  intro e he
  rcases List.mem_append.mp he with h | h
  · exact reconEvents_dir e h
  · split at h
    · exact solveEvents_dir e h
    · simp at h

/-- Every event of the direction-1 block has direction `x1`. -/
theorem dir1Events_dir {shm : Int → Int → Nat} {cfg : FluxConfig} :
    ∀ e ∈ dir1Events shm cfg, eventDir e = .x1 := by
  intro e he
  rcases List.mem_cons.mp he with rfl | he
  · rfl
  · obtain ⟨m, -, he⟩ := mem_seqFor.mp he
    obtain ⟨k, -, he⟩ := mem_seqFor.mp he
    obtain ⟨j, -, he⟩ := mem_seqFor.mp he
    exact dir1UnitEvents_dir e he

/-- Every event of the direction-2 block has direction `x2`. -/
theorem dir2Events_dir {shm : Int → Int → Nat} {cfg : FluxConfig} :
    ∀ e ∈ dir2Events shm cfg, eventDir e = .x2 := by
  intro e he
  rcases List.mem_cons.mp he with rfl | he
  · rfl
  · obtain ⟨m, -, he⟩ := mem_seqFor.mp he
    obtain ⟨k, -, he⟩ := mem_seqFor.mp he
    obtain ⟨j, -, he⟩ := mem_seqFor.mp he
    exact dir2StepEvents_dir e he

/-- Every event of the direction-3 block has direction `x3`. -/
theorem dir3Events_dir {shm : Int → Int → Nat} {cfg : FluxConfig} :
    ∀ e ∈ dir3Events shm cfg, eventDir e = .x3 := by
  intro e he
  rcases List.mem_cons.mp he with rfl | he
  · rfl
  · obtain ⟨m, -, he⟩ := mem_seqFor.mp he
    obtain ⟨j, -, he⟩ := mem_seqFor.mp he
    obtain ⟨k, -, he⟩ := mem_seqFor.mp he
    exact dir3StepEvents_dir e he

/-- Sample configuration with recognized selectors (`plm`, `llf`) on a tiny
3D grid, used to instantiate witnesses. -/
def cfgA : FluxConfig :=
  { is := 2, ie := 3, js := 2, je := 3, ks := 2, ke := 3, nx1 := 2, ng := 2,
    nmhd_local := 8, nscalars := 0, nmb := 1,
    recon_method := .plm, rsolver_method := .llf, nx2gt1 := true, nx3gt1 := true }

/-- C2: in the direction-2 and direction-3 sequential sweeps (with
recognized selectors), the very first loop iteration (`j = js-1` resp.
`k = ks-1`) performs only reconstruction — it emits reconstruction events
and no solve event — while every later loop iteration executes the Riemann
solve. -/
theorem mhd_c2_first_iteration_primes_only (cfg : FluxConfig) (m k2 j3 j k3 : Int)
    (hrm : cfg.recon_method ≠ .unk) (hrs : cfg.rsolver_method ≠ .unk)
    (hj : cfg.js - 1 < j) (hje : j ≤ cfg.je + 1)
    (hk : cfg.ks - 1 < k3) (hke : k3 ≤ cfg.ke + 1) :
    ((dir2StepEvents cfg m k2 (cfg.js - 1)).all isRecon = true ∧
     dir2StepEvents cfg m k2 (cfg.js - 1) ≠ [] ∧
     (dir2StepEvents cfg m k2 j).any isSolve = true) ∧
    ((dir3StepEvents cfg m j3 (cfg.ks - 1)).all isRecon = true ∧
     dir3StepEvents cfg m j3 (cfg.ks - 1) ≠ [] ∧
     (dir3StepEvents cfg m j3 k3).any isSolve = true) := by
  cases hR : cfg.recon_method <;> cases hS : cfg.rsolver_method <;>
    simp_all [dir2StepEvents, dir3StepEvents, reconEvents, solveEvents,
      isRecon, isSolve]

/-- Witness for `mhd_c2_first_iteration_primes_only` on `cfgA` with unit
indices `m = 0`, `k2 = 2`, `j3 = 2` and later loop indices `j = 2`,
`k3 = 2`. -/
theorem mhd_c2_first_iteration_primes_only_witness :
    (cfgA.recon_method ≠ .unk ∧ cfgA.rsolver_method ≠ .unk ∧
     cfgA.js - 1 < 2 ∧ (2 : Int) ≤ cfgA.je + 1 ∧
     cfgA.ks - 1 < 2 ∧ (2 : Int) ≤ cfgA.ke + 1) ∧
    (((dir2StepEvents cfgA 0 2 (cfgA.js - 1)).all isRecon = true ∧
      dir2StepEvents cfgA 0 2 (cfgA.js - 1) ≠ [] ∧
      (dir2StepEvents cfgA 0 2 2).any isSolve = true) ∧
     ((dir3StepEvents cfgA 0 2 (cfgA.ks - 1)).all isRecon = true ∧
      dir3StepEvents cfgA 0 2 (cfgA.ks - 1) ≠ [] ∧
      (dir3StepEvents cfgA 0 2 2).any isSolve = true)) :=
  ⟨⟨by decide, by decide, by decide, by decide, by decide, by decide⟩,
   mhd_c2_first_iteration_primes_only cfgA 0 2 2 2 2 (by decide) (by decide)
     (by decide) (by decide) (by decide) (by decide)⟩

/-- C3: if the mesh has no extent in the second logical dimension,
`MHDCalcFlux` returns `complete` right after the direction-1 sweep and its
whole trace consists of direction-1 events only — in particular there is no
direction-2/3 scratch-size computation and no write to
`flux2`/`emf2`/`flux3`/`emf3`; likewise, with no extent in the third
dimension the trace contains no direction-3 event at all. -/
theorem mhd_c3_dimension_skipping (shm : Int → Int → Nat) (cfg : FluxConfig) :
    (cfg.nx2gt1 = false →
      (MHDCalcFlux shm cfg).2 = .complete ∧
      (∀ e ∈ (MHDCalcFlux shm cfg).1, eventDir e = .x1) ∧
      (∀ e ∈ (MHDCalcFlux shm cfg).1,
        writesFluxOf .x2 e = false ∧ writesFluxOf .x3 e = false ∧
        (isScrAlloc e = true → eventDir e = .x1))) ∧
    (cfg.nx3gt1 = false →
      (MHDCalcFlux shm cfg).2 = .complete ∧
      (∀ e ∈ (MHDCalcFlux shm cfg).1, eventDir e ≠ .x3) ∧
      (∀ e ∈ (MHDCalcFlux shm cfg).1, writesFluxOf .x3 e = false)) := by
  have hwrite : ∀ e : FluxEvent, ∀ d : Dir,
      eventDir e ≠ d → writesFluxOf d e = false := by
    intro e d hne
    cases e with
    | scrAlloc d2 size => rfl
    | recon d2 rm m k j il iu => rfl
    | solve d2 rs m k j il iu =>
      simp only [writesFluxOf, decide_eq_false_iff_not]
      intro hc
      exact hne (by simpa [eventDir] using hc)
  constructor
  · intro h2
    have htr : MHDCalcFlux shm cfg = (dir1Events shm cfg, TaskStatus.complete) := by
      unfold MHDCalcFlux
      rw [if_pos h2]
    rw [htr]
    refine ⟨rfl, dir1Events_dir, ?_⟩
    intro e he
    have hd := dir1Events_dir e he
    exact ⟨hwrite e .x2 (by rw [hd]; intro hc; cases hc),
           hwrite e .x3 (by rw [hd]; intro hc; cases hc),
           fun _ => hd⟩
  · intro h3
    by_cases h2 : cfg.nx2gt1 = false
    · have htr : MHDCalcFlux shm cfg = (dir1Events shm cfg, TaskStatus.complete) := by
        unfold MHDCalcFlux
        rw [if_pos h2]
      rw [htr]
      refine ⟨rfl, ?_, ?_⟩
      · intro e he
        rw [dir1Events_dir e he]
        intro hc
        cases hc
      · intro e he
        exact hwrite e .x3 (by rw [dir1Events_dir e he]; intro hc; cases hc)
    · have htr : MHDCalcFlux shm cfg =
          (dir1Events shm cfg ++ dir2Events shm cfg, TaskStatus.complete) := by
        unfold MHDCalcFlux
        rw [if_neg h2, if_pos h3]
      rw [htr]
      have hdir : ∀ e ∈ dir1Events shm cfg ++ dir2Events shm cfg, eventDir e ≠ .x3 := by
        intro e he
        rcases List.mem_append.mp he with h | h
        · rw [dir1Events_dir e h]
          intro hc
          cases hc
        · rw [dir2Events_dir e h]
          intro hc
          cases hc
      exact ⟨rfl, hdir, fun e he => hwrite e .x3 (hdir e he)⟩

/-- Witness for `mhd_c3_dimension_skipping`: a configuration with
`nx2gt1 = false` (so both hypotheses of the two implications are exercised
on configurations where they hold; here the `nx3gt1 = false` implication is
exercised as well). -/
theorem mhd_c3_dimension_skipping_witness :
    (({ cfgA with nx2gt1 := false, nx3gt1 := false } : FluxConfig).nx2gt1 = false) ∧
    ((MHDCalcFlux (fun a b => (a + b).toNat)
        { cfgA with nx2gt1 := false, nx3gt1 := false }).2 = .complete ∧
     (∀ e ∈ (MHDCalcFlux (fun a b => (a + b).toNat)
        { cfgA with nx2gt1 := false, nx3gt1 := false }).1, eventDir e = .x1) ∧
     (∀ e ∈ (MHDCalcFlux (fun a b => (a + b).toNat)
        { cfgA with nx2gt1 := false, nx3gt1 := false }).1,
        writesFluxOf .x2 e = false ∧ writesFluxOf .x3 e = false ∧
        (isScrAlloc e = true → eventDir e = .x1))) :=
  ⟨rfl,
   (mhd_c3_dimension_skipping (fun a b => (a + b).toNat)
     { cfgA with nx2gt1 := false, nx3gt1 := false }).1 rfl⟩

/-- Concrete stand-in for the external `shmem_size` function, used to
instantiate witnesses and counterexamples. -/
def shmW : Int → Int → Nat := fun a b => (a + b).toNat

/-- C9: `MHDCalcFlux` returns `TaskStatus::complete` on every control path
— after direction 1 when `!nx2gt1`, after direction 2 when `!nx3gt1`, and
after direction 3 otherwise — for every configuration, including every
unrecognized selector; no failure status is ever returned. -/
theorem mhd_c9_always_complete (shm : Int → Int → Nat) (cfg : FluxConfig) :
    (MHDCalcFlux shm cfg).2 = .complete := by
  unfold MHDCalcFlux
  by_cases h2 : cfg.nx2gt1 = false
  · rw [if_pos h2]
  · rw [if_neg h2]
    by_cases h3 : cfg.nx3gt1 = false
    · rw [if_pos h3]
    · rw [if_neg h3]

/-- Line 39 of `mhd_calc_fluxes.cpp`: `int nvars = nmhd + nscalars;`,
where `nmhd` is the local variable of line 38 (`int nmhd = nmhd;`), which
is initialized from its own indeterminate value (the declaration shadows
the member `nmhd` before the initializer is evaluated). -/
def nvarsComputed (nmhd_local nscalars : Int) : Int := nmhd_local + nscalars

/-- C5 (code bug): since the local `nmhd` of line 38 is self-initialized,
the `nvars` actually used for scratch sizing is not tied to the member
`nmhd`.  On an invocation where the member `nmhd` is 8, `nscalars` is 0 and
the indeterminate local reads 0 (configuration `cfgA` with
`nmhd_local := 0`), the direction-1 scratch-size computation in the trace
is the one derived from `nvars = 0`, and the size that `nvars = nmhd +
nscalars = 8` would give does not occur; moreover for every member value
and scalar count there is a value of the indeterminate local making the
computed `nvars` differ from `nmhd + nscalars`. -/
theorem mhd_c5_nvars_indeterminate :
    (FluxEvent.scrAlloc .x1 ((shmW (nvarsComputed 0 0) 6 + shmW 3 6) * 2) ∈
      (MHDCalcFlux shmW { cfgA with nmhd_local := 0 }).1) ∧
    (FluxEvent.scrAlloc .x1 ((shmW 8 6 + shmW 3 6) * 2) ∉
      (MHDCalcFlux shmW { cfgA with nmhd_local := 0 }).1) ∧
    (∀ member_nmhd nscalars : Int, ∃ garbage : Int,
      nvarsComputed garbage nscalars ≠ member_nmhd + nscalars) := by
  refine ⟨by decide, by decide, ?_⟩
  intro a s
  exact ⟨a + 1, by unfold nvarsComputed; omega⟩

/-- Events of a reconstruction switch are never solve events. -/
theorem isSolve_false_of_reconEvents {d : Dir} {rm : ReconstructionMethod}
    {m k j il iu : Int} :
    ∀ e ∈ reconEvents d rm m k j il iu, isSolve e = false := by
  intro e he
  cases rm <;> simp [reconEvents] at he <;> subst he <;> rfl

/-- With an unrecognized Riemann-solver selector a direction-1 unit emits
no solve event. -/
theorem dir1UnitEvents_no_solve {cfg : FluxConfig} {m k j : Int}
    (h : cfg.rsolver_method = .unk) :
    ∀ e ∈ dir1UnitEvents cfg m k j, isSolve e = false := by
  intro e he
  unfold dir1UnitEvents at he
  rw [h] at he
  simp only [solveEvents, List.append_nil] at he
  exact isSolve_false_of_reconEvents e he

/-- With an unrecognized Riemann-solver selector a direction-2 loop
iteration emits no solve event. -/
theorem dir2StepEvents_no_solve {cfg : FluxConfig} {m k j : Int}
    (h : cfg.rsolver_method = .unk) :
    ∀ e ∈ dir2StepEvents cfg m k j, isSolve e = false := by
  intro e he
  unfold dir2StepEvents at he
  rw [h] at he
  simp only [solveEvents, ite_self, List.append_nil] at he
  exact isSolve_false_of_reconEvents e he

/-- With an unrecognized Riemann-solver selector a direction-3 loop
iteration emits no solve event. -/
theorem dir3StepEvents_no_solve {cfg : FluxConfig} {m j k : Int}
    (h : cfg.rsolver_method = .unk) :
    ∀ e ∈ dir3StepEvents cfg m j k, isSolve e = false := by
  intro e he
  unfold dir3StepEvents at he
  rw [h] at he
  simp only [solveEvents, ite_self, List.append_nil] at he
  exact isSolve_false_of_reconEvents e he

/-- With an unrecognized Riemann-solver selector the direction-1 block
emits no solve event. -/
theorem dir1Events_no_solve {shm : Int → Int → Nat} {cfg : FluxConfig}
    (h : cfg.rsolver_method = .unk) :
    ∀ e ∈ dir1Events shm cfg, isSolve e = false := by
  intro e he
  rcases List.mem_cons.mp he with rfl | he
  · rfl
  · obtain ⟨m, -, he⟩ := mem_seqFor.mp he
    obtain ⟨k, -, he⟩ := mem_seqFor.mp he
    obtain ⟨j, -, he⟩ := mem_seqFor.mp he
    exact dir1UnitEvents_no_solve h e he

/-- With an unrecognized Riemann-solver selector the direction-2 block
emits no solve event. -/
theorem dir2Events_no_solve {shm : Int → Int → Nat} {cfg : FluxConfig}
    (h : cfg.rsolver_method = .unk) :
    ∀ e ∈ dir2Events shm cfg, isSolve e = false := by
  intro e he
  rcases List.mem_cons.mp he with rfl | he
  · rfl
  · obtain ⟨m, -, he⟩ := mem_seqFor.mp he
    obtain ⟨k, -, he⟩ := mem_seqFor.mp he
    obtain ⟨j, -, he⟩ := mem_seqFor.mp he
    exact dir2StepEvents_no_solve h e he

/-- With an unrecognized Riemann-solver selector the direction-3 block
emits no solve event. -/
theorem dir3Events_no_solve {shm : Int → Int → Nat} {cfg : FluxConfig}
    (h : cfg.rsolver_method = .unk) :
    ∀ e ∈ dir3Events shm cfg, isSolve e = false := by
  intro e he
  rcases List.mem_cons.mp he with rfl | he
  · rfl
  · obtain ⟨m, -, he⟩ := mem_seqFor.mp he
    obtain ⟨j, -, he⟩ := mem_seqFor.mp he
    obtain ⟨k, -, he⟩ := mem_seqFor.mp he
    exact dir3StepEvents_no_solve h e he

/-- Configuration `cfgA` restricted to one dimension, with an unrecognized
reconstruction-method selector and the recognized `llf` solver. -/
def cfgC4 : FluxConfig := { cfgA with recon_method := .unk, nx2gt1 := false, nx3gt1 := false }

/-- Configuration `cfgA` with an unrecognized Riemann-solver selector. -/
def cfgC4b : FluxConfig := { cfgA with rsolver_method := .unk }

/-- Counterexample to C4: for the invocation `cfgC4` (one-dimensional, with
an unrecognized reconstruction-method selector but the recognized `llf`
solver), the trace still contains a solve event for direction 1 — a write
to `flux1`/`emf1` performed on never-initialized scratch buffers — so the
flux and EMF output arrays of the affected direction are not left
unmodified. -/
theorem mhd_c4_counterexample :
    cfgC4.recon_method = .unk ∧
    FluxEvent.solve .x1 .llf 0 2 2 2 4 ∈ (MHDCalcFlux shmW cfgC4).1 := by
  decide

/-- C4 (amended): with an unrecognized Riemann-solver selector, the default
switch cases perform no work at all — the trace contains no solve event, so
no flux/EMF output array of any direction is written — and no error is
raised (the status is still `complete`).  With an unrecognized
reconstruction selector alone this does not hold: a recognized solver still
runs and writes the flux/EMF arrays of its direction (see the
counterexample). -/
theorem mhd_c4_amended_unrecognized_solver (shm : Int → Int → Nat)
    (cfg : FluxConfig) (h : cfg.rsolver_method = .unk) :
    (MHDCalcFlux shm cfg).2 = .complete ∧
    ∀ e ∈ (MHDCalcFlux shm cfg).1, isSolve e = false := by
  unfold MHDCalcFlux
  by_cases h2 : cfg.nx2gt1 = false
  · rw [if_pos h2]
    exact ⟨rfl, dir1Events_no_solve h⟩
  · rw [if_neg h2]
    by_cases h3 : cfg.nx3gt1 = false
    · rw [if_pos h3]
      refine ⟨rfl, ?_⟩
      intro e he
      rcases List.mem_append.mp he with he | he
      exacts [dir1Events_no_solve h e he, dir2Events_no_solve h e he]
    · rw [if_neg h3]
      refine ⟨rfl, ?_⟩
      intro e he
      rcases List.mem_append.mp he with he | he
      · rcases List.mem_append.mp he with he | he
        exacts [dir1Events_no_solve h e he, dir2Events_no_solve h e he]
      · exact dir3Events_no_solve h e he

/-- Witness for `mhd_c4_amended_unrecognized_solver` on `cfgA` with the
solver selector replaced by an unrecognized value. -/
theorem mhd_c4_amended_unrecognized_solver_witness :
    cfgC4b.rsolver_method = .unk ∧
    ((MHDCalcFlux shmW cfgC4b).2 = .complete ∧
     ∀ e ∈ (MHDCalcFlux shmW cfgC4b).1, isSolve e = false) :=
  ⟨rfl, mhd_c4_amended_unrecognized_solver shmW cfgC4b rfl⟩

/-- Events of a reconstruction switch are never scratch-size events. -/
theorem isScrAlloc_false_of_reconEvents {d : Dir} {rm : ReconstructionMethod}
    {m k j il iu : Int} :
    ∀ e ∈ reconEvents d rm m k j il iu, isScrAlloc e = false := by
  intro e he
  cases rm <;> simp [reconEvents] at he <;> subst he <;> rfl

/-- Events of a Riemann-solver switch are never scratch-size events. -/
theorem isScrAlloc_false_of_solveEvents {d : Dir} {rs : MHD_RSolver}
    {m k j il iu : Int} :
    ∀ e ∈ solveEvents d rs m k j il iu, isScrAlloc e = false := by
  intro e he
  cases rs <;> simp [solveEvents] at he <;> subst he <;> rfl

/-- A direction-1 unit emits no scratch-size event: the size is computed
before the dispatch, not inside it. -/
theorem dir1UnitEvents_no_alloc {cfg : FluxConfig} {m k j : Int} :
    ∀ e ∈ dir1UnitEvents cfg m k j, isScrAlloc e = false := by
  intro e he
  rcases List.mem_append.mp he with h | h
  · exact isScrAlloc_false_of_reconEvents e h
  · exact isScrAlloc_false_of_solveEvents e h

/-- A direction-2 loop iteration emits no scratch-size event. -/
theorem dir2StepEvents_no_alloc {cfg : FluxConfig} {m k j : Int} :
    ∀ e ∈ dir2StepEvents cfg m k j, isScrAlloc e = false := by
  intro e he
  rcases List.mem_append.mp he with h | h
  · exact isScrAlloc_false_of_reconEvents e h
  · split at h
    · exact isScrAlloc_false_of_solveEvents e h
    · simp at h

/-- A direction-3 loop iteration emits no scratch-size event. -/
theorem dir3StepEvents_no_alloc {cfg : FluxConfig} {m j k : Int} :
    ∀ e ∈ dir3StepEvents cfg m j k, isScrAlloc e = false := by
  intro e he
  rcases List.mem_append.mp he with h | h
  · exact isScrAlloc_false_of_reconEvents e h
  · split at h
    · exact isScrAlloc_false_of_solveEvents e h
    · simp at h

/-- Filtering the scratch-size events of a block whose only such event is
its head. -/
theorem filter_alloc_cons_of_no_alloc {a : FluxEvent} {l : List FluxEvent}
    (ha : isScrAlloc a = true) (hl : ∀ e ∈ l, isScrAlloc e = false) :
    (a :: l).filter isScrAlloc = [a] := by
  rw [List.filter_cons_of_pos ha]
  rw [List.filter_eq_nil_iff.mpr (fun e he => by simp [hl e he])]

/-- The direction-1 block computes exactly one scratch size, with
multiplier 2. -/
theorem dir1Events_filter_alloc (shm : Int → Int → Nat) (cfg : FluxConfig) :
    (dir1Events shm cfg).filter isScrAlloc =
      [FluxEvent.scrAlloc .x1
        ((shm (cfg.nmhd_local + cfg.nscalars) (cfg.nx1 + 2 * cfg.ng) +
          shm 3 (cfg.nx1 + 2 * cfg.ng)) * 2)] := by
  unfold dir1Events
  refine filter_alloc_cons_of_no_alloc ?_ ?_
  · rfl
  intro e he
  obtain ⟨m, -, he⟩ := mem_seqFor.mp he
  obtain ⟨k, -, he⟩ := mem_seqFor.mp he
  obtain ⟨j, -, he⟩ := mem_seqFor.mp he
  exact dir1UnitEvents_no_alloc e he

/-- The direction-2 block computes exactly one scratch size, with
multiplier 3. -/
theorem dir2Events_filter_alloc (shm : Int → Int → Nat) (cfg : FluxConfig) :
    (dir2Events shm cfg).filter isScrAlloc =
      [FluxEvent.scrAlloc .x2
        ((shm (cfg.nmhd_local + cfg.nscalars) (cfg.nx1 + 2 * cfg.ng) +
          shm 3 (cfg.nx1 + 2 * cfg.ng)) * 3)] := by
  unfold dir2Events
  refine filter_alloc_cons_of_no_alloc ?_ ?_
  · rfl
  intro e he
  obtain ⟨m, -, he⟩ := mem_seqFor.mp he
  obtain ⟨k, -, he⟩ := mem_seqFor.mp he
  obtain ⟨j, -, he⟩ := mem_seqFor.mp he
  exact dir2StepEvents_no_alloc e he

/-- The direction-3 block computes exactly one scratch size, with
multiplier 3. -/
theorem dir3Events_filter_alloc (shm : Int → Int → Nat) (cfg : FluxConfig) :
    (dir3Events shm cfg).filter isScrAlloc =
      [FluxEvent.scrAlloc .x3
        ((shm (cfg.nmhd_local + cfg.nscalars) (cfg.nx1 + 2 * cfg.ng) +
          shm 3 (cfg.nx1 + 2 * cfg.ng)) * 3)] := by
  unfold dir3Events
  refine filter_alloc_cons_of_no_alloc ?_ ?_
  · rfl
  intro e he
  obtain ⟨m, -, he⟩ := mem_seqFor.mp he
  obtain ⟨j, -, he⟩ := mem_seqFor.mp he
  obtain ⟨k, -, he⟩ := mem_seqFor.mp he
  exact dir3StepEvents_no_alloc e he

/-- C6: the scratch-size events of a whole invocation are exactly one per
executed direction, each a pure function of `nvars` (the line-39 value) and
the fixed magnetic width 3 times the line length `ncells1 = nx1 + 2*ng`,
with buffer-set multiplier 2 for direction 1 and 3 for directions 2 and 3;
no unit recomputes a size. -/
theorem mhd_c6_scratch_sizing (shm : Int → Int → Nat) (cfg : FluxConfig) :
    (MHDCalcFlux shm cfg).1.filter isScrAlloc =
      (let base := shm (cfg.nmhd_local + cfg.nscalars) (cfg.nx1 + 2 * cfg.ng) +
        shm 3 (cfg.nx1 + 2 * cfg.ng)
      if cfg.nx2gt1 = false then
        [FluxEvent.scrAlloc .x1 (base * 2)]
      else if cfg.nx3gt1 = false then
        [FluxEvent.scrAlloc .x1 (base * 2), FluxEvent.scrAlloc .x2 (base * 3)]
      else
        [FluxEvent.scrAlloc .x1 (base * 2), FluxEvent.scrAlloc .x2 (base * 3),
         FluxEvent.scrAlloc .x3 (base * 3)]) := by
  unfold MHDCalcFlux
  by_cases h2 : cfg.nx2gt1 = false
  · rw [if_pos h2]
    simp only [if_pos h2]
    exact dir1Events_filter_alloc shm cfg
  · rw [if_neg h2]
    simp only [if_neg h2]
    by_cases h3 : cfg.nx3gt1 = false
    · rw [if_pos h3]
      simp only [if_pos h3]
      rw [List.filter_append, dir1Events_filter_alloc, dir2Events_filter_alloc]
      rfl
    · rw [if_neg h3]
      simp only [if_neg h3]
      rw [List.filter_append, List.filter_append, dir1Events_filter_alloc,
        dir2Events_filter_alloc, dir3Events_filter_alloc]
      rfl

/-- Configuration `cfgA` restricted to one dimension (selectors `plm` and
`llf` recognized). -/
def cfg1d : FluxConfig := { cfgA with nx2gt1 := false, nx3gt1 := false }

/-- Counterexample to C7: on the invocation `cfg1d` the direction-1 unit
`(m,k,j) = (0,2,2)` issues its Riemann solve over the face range
`is..ie+1` (= `2..4`), not over the full reconstruction line `is-1..ie+1`
(= `1..4`); no direction-1 solve event over `is-1..ie+1` exists anywhere
in the trace. -/
theorem mhd_c7_counterexample :
    (FluxEvent.solve .x1 .llf 0 2 2 cfg1d.is (cfg1d.ie + 1) ∈
      (MHDCalcFlux shmW cfg1d).1) ∧
    (FluxEvent.solve .x1 .llf 0 2 2 (cfg1d.is - 1) (cfg1d.ie + 1) ∉
      (MHDCalcFlux shmW cfg1d).1) ∧
    cfg1d.is ≠ cfg1d.is - 1 := by
  decide

/-- Every event of the direction-1 block is an event of the trace,
whichever dimensions are active. -/
theorem mem_MHDCalcFlux_of_mem_dir1 {shm : Int → Int → Nat} {cfg : FluxConfig}
    {e : FluxEvent} (h : e ∈ dir1Events shm cfg) : e ∈ (MHDCalcFlux shm cfg).1 := by
  unfold MHDCalcFlux
  by_cases h2 : cfg.nx2gt1 = false
  · rw [if_pos h2]
    exact h
  · rw [if_neg h2]
    by_cases h3 : cfg.nx3gt1 = false
    · rw [if_pos h3]
      exact List.mem_append.mpr (Or.inl h)
    · rw [if_neg h3]
      exact List.mem_append.mpr (Or.inl (List.mem_append.mpr (Or.inl h)))

/-- C7 (amended): in the direction-1 sweep one parallel unit is dispatched
per `(block m, k, j)` with `0 ≤ m ≤ nmb-1`, `ks ≤ k ≤ ke`, `js ≤ j ≤ je`;
with recognized selectors each unit performs exactly one reconstruction,
over the full line `is-1..ie+1`, and exactly one Riemann solve, over the
face range `is..ie+1`, and both events appear in the invocation trace. -/
theorem mhd_c7_amended_dir1_unit (shm : Int → Int → Nat) (cfg : FluxConfig)
    (m k j : Int)
    (hrm : cfg.recon_method ≠ .unk) (hrs : cfg.rsolver_method ≠ .unk)
    (hm0 : 0 ≤ m) (hm1 : m ≤ cfg.nmb - 1)
    (hk0 : cfg.ks ≤ k) (hk1 : k ≤ cfg.ke)
    (hj0 : cfg.js ≤ j) (hj1 : j ≤ cfg.je) :
    dir1UnitEvents cfg m k j =
      [FluxEvent.recon .x1 cfg.recon_method m k j (cfg.is - 1) (cfg.ie + 1),
       FluxEvent.solve .x1 cfg.rsolver_method m k j cfg.is (cfg.ie + 1)] ∧
    FluxEvent.recon .x1 cfg.recon_method m k j (cfg.is - 1) (cfg.ie + 1) ∈
      (MHDCalcFlux shm cfg).1 ∧
    FluxEvent.solve .x1 cfg.rsolver_method m k j cfg.is (cfg.ie + 1) ∈
      (MHDCalcFlux shm cfg).1 := by
  have hunit : dir1UnitEvents cfg m k j =
      [FluxEvent.recon .x1 cfg.recon_method m k j (cfg.is - 1) (cfg.ie + 1),
       FluxEvent.solve .x1 cfg.rsolver_method m k j cfg.is (cfg.ie + 1)] := by
    cases hR : cfg.recon_method <;> cases hS : cfg.rsolver_method <;>
      simp_all [dir1UnitEvents, reconEvents, solveEvents]
  have hmem : ∀ e ∈ dir1UnitEvents cfg m k j, e ∈ (MHDCalcFlux shm cfg).1 := by
    intro e he
    apply mem_MHDCalcFlux_of_mem_dir1
    unfold dir1Events
    refine List.mem_cons.mpr (Or.inr ?_)
    refine mem_seqFor.mpr ⟨m, mem_intRange.mpr ⟨hm0, hm1⟩, ?_⟩
    refine mem_seqFor.mpr ⟨k, mem_intRange.mpr ⟨hk0, hk1⟩, ?_⟩
    exact mem_seqFor.mpr ⟨j, mem_intRange.mpr ⟨hj0, hj1⟩, he⟩
  refine ⟨hunit, ?_, ?_⟩
  · exact hmem _ (by rw [hunit]; exact List.mem_cons_self _ _)
  · exact hmem _ (by rw [hunit]; exact List.mem_cons.mpr (Or.inr (List.mem_cons_self _ _)))

/-- Witness for `mhd_c7_amended_dir1_unit` on `cfgA` at unit `(0,2,2)`. -/
theorem mhd_c7_amended_dir1_unit_witness :
    (cfgA.recon_method ≠ .unk ∧ cfgA.rsolver_method ≠ .unk ∧
     (0 : Int) ≤ 0 ∧ (0 : Int) ≤ cfgA.nmb - 1 ∧
     cfgA.ks ≤ 2 ∧ (2 : Int) ≤ cfgA.ke ∧ cfgA.js ≤ 2 ∧ (2 : Int) ≤ cfgA.je) ∧
    (dir1UnitEvents cfgA 0 2 2 =
      [FluxEvent.recon .x1 cfgA.recon_method 0 2 2 (cfgA.is - 1) (cfgA.ie + 1),
       FluxEvent.solve .x1 cfgA.rsolver_method 0 2 2 cfgA.is (cfgA.ie + 1)] ∧
     FluxEvent.recon .x1 cfgA.recon_method 0 2 2 (cfgA.is - 1) (cfgA.ie + 1) ∈
       (MHDCalcFlux shmW cfgA).1 ∧
     FluxEvent.solve .x1 cfgA.rsolver_method 0 2 2 cfgA.is (cfgA.ie + 1) ∈
       (MHDCalcFlux shmW cfgA).1) :=
  ⟨⟨by decide, by decide, by decide, by decide, by decide, by decide, by decide, by decide⟩,
   mhd_c7_amended_dir1_unit shmW cfgA 0 2 2 (by decide) (by decide) (by decide)
     (by decide) (by decide) (by decide) (by decide) (by decide)⟩

/-!
Embedding of the Orszag-Tang problem generator `src/pgen/orszag_tang.cpp`.
The kernel works in floating point through the math library; it is modelled
over an arbitrary field equipped with opaque `sin`, `cos`, `sqrt`
operations and an opaque constant `pi`, so every proved identity is an
identity of the expression structure, valid for any interpretation of
those operations.  The geometry helpers `CellCenterX` and `LeftEdgeX`
(from `utils/grid_locations.hpp`, not part of the sources) are opaque
arguments applied with the exact argument lists of the call sites.
-/

/-- Opaque math-library operations (`std::sin`, `std::cos`, `std::sqrt`,
`M_PI`). -/
structure TrigOps (α : Type) where
  sin : α → α
  cos : α → α
  sqrt : α → α
  pi : α

/-- Line 54: `B0 = 1.0/std::sqrt(4.0*M_PI);` — the value stored in the
global variable `B0` shared with `A3`. -/
def otB0 {α : Type} [Field α] (T : TrigOps α) : α := 1 / T.sqrt (4 * T.pi)

/-- Lines 34-37: `A3(x1,x2) = (B0/(4.0*M_PI))*(std::cos(4.0*M_PI*x1) -
2.0*std::cos(2.0*M_PI*x2))`, parametrized by the value of the global
`B0`. -/
def A3 {α : Type} [Field α] (T : TrigOps α) (B0 x1 x2 : α) : α :=
  (B0 / (4 * T.pi)) * (T.cos (4 * T.pi * x1) - 2 * T.cos (2 * T.pi * x2))

/-- Values assigned by one iteration `(m,k,j,i)` of the kernel `pgen_ot1`
(lines 72-107): the conserved density and momenta of cell `(k,j,i)`, the
three face fields at the lower faces of the cell, and the extra edge faces
written only when `i == ie` / `j == je` / `k == ke`. -/
structure OTCellAssign (α : Type) where
  dn : α
  m1 : α
  m2 : α
  m3 : α
  b1f : α
  b2f : α
  b3f : α
  b1f_edge : Option α
  b2f_edge : Option α
  b3f_edge : Option α

/-- One iteration of the kernel `pgen_ot1` (lines 72-107), with `d0`, `v0`
and the global `B0` set as in lines 54-56.  `x1min..dx2` are the fields of
`size` for block `m`. -/
def orszagTangKernel {α : Type} [Field α] (T : TrigOps α)
    (CellCenterX LeftEdgeX : Int → Int → α → α → α)
    (nx1 nx2 : Int) (x1min x1max x2min x2max dx1 dx2 : α)
    (is ie js je ke : Int) (k j i : Int) : OTCellAssign α :=
  let B0 := otB0 T
  let d0 : α := 25 / (36 * T.pi)
  let v0 : α := 1
  let x1v := CellCenterX (i - is) nx1 x1min x1max
  let x2v := CellCenterX (j - js) nx2 x2min x2max
  let x1f := LeftEdgeX (i - is) nx1 x1min x1max
  let x1fp1 := LeftEdgeX (i + 1 - is) nx1 x1min x1max
  let x2f := LeftEdgeX (j - js) nx2 x2min x2max
  let x2fp1 := LeftEdgeX (j + 1 - js) nx2 x2min x2max
  { dn := d0
    m1 := d0 * v0 * T.sin (2 * T.pi * x2v)
    m2 := (-d0) * v0 * T.sin (2 * T.pi * x1v)
    m3 := 0
    b1f := (A3 T B0 x1f x2fp1 - A3 T B0 x1f x2f) / dx2
    b2f := (-(A3 T B0 x1fp1 x2f - A3 T B0 x1f x2f)) / dx1
    b3f := 0
    b1f_edge :=
      if i = ie then some ((A3 T B0 x1fp1 x2fp1 - A3 T B0 x1fp1 x2f) / dx2) else none
    b2f_edge :=
      if j = je then some ((-(A3 T B0 x1fp1 x2fp1 - A3 T B0 x1f x2fp1)) / dx1) else none
    b3f_edge := if k = ke then some 0 else none }

/-- C8: at every cell the Orszag-Tang generator sets the density to
`25/(36π)`; the momentum to `(d0·v0·sin(2π·x2v), −d0·v0·sin(2π·x1v), 0)`
with `v0 = 1` (so the factor `v0` drops out); the face-centered field to
the finite differences (curl) of the vector potential
`A3(x1,x2) = (B0/(4π))·(cos(4π·x1) − 2·cos(2π·x2))` with
`B0 = 1/sqrt(4π)`, evaluated at the cell face edges; and `b0.x3f` to zero
everywhere, including the extra `k == ke` edge face. -/
theorem ot_c8_orszag_tang_init {α : Type} [Field α] (T : TrigOps α)
    (CellCenterX LeftEdgeX : Int → Int → α → α → α)
    (nx1 nx2 : Int) (x1min x1max x2min x2max dx1 dx2 : α)
    (is ie js je ke k j i : Int) :
    (orszagTangKernel T CellCenterX LeftEdgeX nx1 nx2 x1min x1max x2min x2max
        dx1 dx2 is ie js je ke k j i).dn = 25 / (36 * T.pi) ∧
    (orszagTangKernel T CellCenterX LeftEdgeX nx1 nx2 x1min x1max x2min x2max
        dx1 dx2 is ie js je ke k j i).m1 =
      (25 / (36 * T.pi)) * T.sin (2 * T.pi * CellCenterX (j - js) nx2 x2min x2max) ∧
    (orszagTangKernel T CellCenterX LeftEdgeX nx1 nx2 x1min x1max x2min x2max
        dx1 dx2 is ie js je ke k j i).m2 =
      -((25 / (36 * T.pi)) * T.sin (2 * T.pi * CellCenterX (i - is) nx1 x1min x1max)) ∧
    (orszagTangKernel T CellCenterX LeftEdgeX nx1 nx2 x1min x1max x2min x2max
        dx1 dx2 is ie js je ke k j i).m3 = 0 ∧
    (orszagTangKernel T CellCenterX LeftEdgeX nx1 nx2 x1min x1max x2min x2max
        dx1 dx2 is ie js je ke k j i).b1f =
      (A3 T (1 / T.sqrt (4 * T.pi)) (LeftEdgeX (i - is) nx1 x1min x1max)
          (LeftEdgeX (j + 1 - js) nx2 x2min x2max) -
        A3 T (1 / T.sqrt (4 * T.pi)) (LeftEdgeX (i - is) nx1 x1min x1max)
          (LeftEdgeX (j - js) nx2 x2min x2max)) / dx2 ∧
    (orszagTangKernel T CellCenterX LeftEdgeX nx1 nx2 x1min x1max x2min x2max
        dx1 dx2 is ie js je ke k j i).b2f =
      (-(A3 T (1 / T.sqrt (4 * T.pi)) (LeftEdgeX (i + 1 - is) nx1 x1min x1max)
          (LeftEdgeX (j - js) nx2 x2min x2max) -
        A3 T (1 / T.sqrt (4 * T.pi)) (LeftEdgeX (i - is) nx1 x1min x1max)
          (LeftEdgeX (j - js) nx2 x2min x2max))) / dx1 ∧
    (orszagTangKernel T CellCenterX LeftEdgeX nx1 nx2 x1min x1max x2min x2max
        dx1 dx2 is ie js je ke k j i).b3f = 0 ∧
    ((orszagTangKernel T CellCenterX LeftEdgeX nx1 nx2 x1min x1max x2min x2max
        dx1 dx2 is ie js je ke k j i).b3f_edge).getD 0 = 0 ∧
    (∀ B0v x1 x2 : α, A3 T B0v x1 x2 =
      (B0v / (4 * T.pi)) * (T.cos (4 * T.pi * x1) - 2 * T.cos (2 * T.pi * x2))) := by
  unfold orszagTangKernel otB0
  refine ⟨rfl, by ring, by ring, rfl, rfl, rfl, rfl, ?_, fun B0v x1 x2 => rfl⟩
  dsimp only
  split <;> rfl

/-!
Embedding of the particle initialization kernel `part_update` of
`src/pgen/part_static_turb.cpp` (lines 76-118).  The floating-point
position arithmetic is modelled over an arbitrary linear ordered field;
`fmin`/`fmax` become `min`/`max`.  The random draws `rand_gen.frand()` are
arbitrary field values, and the truncating cast
`static_cast<int>(frand()*(gide-gids+1.0))` of line 80 is modelled as an
arbitrary integer input `m_init` — the claims are required to hold
regardless of the random values drawn, hence for every such integer.
-/

/-- Lines 80-82: `int m = static_cast<int>(rand_gen.frand()*(gide - gids +
1.0)); m = max(m,0); m = min(m,nmbtp-1);` — the clamped parent-block
offset. -/
def chooseParentOffset (m_init nmbtp : Int) : Int := min (max m_init 0) (nmbtp - 1)

/-- Line 83: `pi(PGID,p) = gids + m;`. -/
def pgidOf (gids m_init nmbtp : Int) : Int := gids + chooseParentOffset m_init nmbtp

/-- Lines 84-87: `int spec = p/npart_spec; spec = max(spec, 0); spec =
min(spec, nspecies_-1); pi(PSP,p) = spec;` — C++ integer division
truncates toward zero, which `Int.tdiv` matches. -/
def specOf (p npart_spec nspecies : Int) : Int :=
  min (max (p.tdiv npart_spec) 0) (nspecies - 1)

/-- Lines 88-91 (and identically 92-95 and 97-100 for the other two
components): `pr(IPX,p) = (1.-rand)*x1min + rand*x1max;` followed by
`fmin` with the upper bound and `fmax` with the lower bound, both against
the bounds of the chosen parent block. -/
def posOf {α : Type} [LinearOrderedField α] (rand xmin xmax : α) : α :=
  max (min ((1 - rand) * xmin + rand * xmax) xmax) xmin

/-- C10: after initialization, for every particle and regardless of the
random values drawn: the stored parent-block id lies in
`[gids, gids + nmbtp - 1]` (given at least one block), the species index
lies in `[0, nspecies - 1]` (given at least one species), and each clamped
position component lies within the corresponding coordinate bounds of the
chosen parent block (given those bounds are ordered). -/
theorem part_c10_particle_bounds {α : Type} [LinearOrderedField α]
    (gids m_init nmbtp p npart_spec nspecies : Int)
    (r1 r2 r3 x1min x1max x2min x2max x3min x3max : α)
    (hnmb : 1 ≤ nmbtp) (hspec : 1 ≤ nspecies)
    (h1 : x1min ≤ x1max) (h2 : x2min ≤ x2max) (h3 : x3min ≤ x3max) :
    (gids ≤ pgidOf gids m_init nmbtp ∧ pgidOf gids m_init nmbtp ≤ gids + nmbtp - 1) ∧
    (0 ≤ specOf p npart_spec nspecies ∧ specOf p npart_spec nspecies ≤ nspecies - 1) ∧
    (x1min ≤ posOf r1 x1min x1max ∧ posOf r1 x1min x1max ≤ x1max) ∧
    (x2min ≤ posOf r2 x2min x2max ∧ posOf r2 x2min x2max ≤ x2max) ∧
    (x3min ≤ posOf r3 x3min x3max ∧ posOf r3 x3min x3max ≤ x3max) := by
  have hpos : ∀ r xmin xmax : α, xmin ≤ xmax →
      xmin ≤ posOf r xmin xmax ∧ posOf r xmin xmax ≤ xmax := by
    intro r xmin xmax hle
    unfold posOf
    exact ⟨le_max_right _ _, max_le (min_le_right _ _) hle⟩
  refine ⟨?_, ?_, hpos r1 _ _ h1, hpos r2 _ _ h2, hpos r3 _ _ h3⟩
  · unfold pgidOf chooseParentOffset
    have hlo : (0 : Int) ≤ min (max m_init 0) (nmbtp - 1) :=
      le_min (le_max_right _ _) (by omega)
    have hhi : min (max m_init 0) (nmbtp - 1) ≤ nmbtp - 1 := min_le_right _ _
    generalize min (max m_init 0) (nmbtp - 1) = q at hlo hhi ⊢
    omega
  · unfold specOf
    have hlo : (0 : Int) ≤ min (max (p.tdiv npart_spec) 0) (nspecies - 1) :=
      le_min (le_max_right _ _) (by omega)
    have hhi : min (max (p.tdiv npart_spec) 0) (nspecies - 1) ≤ nspecies - 1 :=
      min_le_right _ _
    generalize min (max (p.tdiv npart_spec) 0) (nspecies - 1) = q at hlo hhi ⊢
    omega

/-- Witness for `part_c10_particle_bounds` over `ℚ` with `gids = 5`,
`m_init = 7`, `nmbtp = 2`, `p = 4`, `npart_spec = 2`, `nspecies = 3` and
concrete random draws and block bounds. -/
theorem part_c10_particle_bounds_witness :
    ((1 : Int) ≤ 2 ∧ (1 : Int) ≤ 3 ∧
     (0 : ℚ) ≤ 1 ∧ (0 : ℚ) ≤ 2 ∧ (0 : ℚ) ≤ 3) ∧
    ((5 ≤ pgidOf 5 7 2 ∧ pgidOf 5 7 2 ≤ 5 + 2 - 1) ∧
     (0 ≤ specOf 4 2 3 ∧ specOf 4 2 3 ≤ 3 - 1) ∧
     ((0 : ℚ) ≤ posOf (1/2 : ℚ) 0 1 ∧ posOf (1/2 : ℚ) 0 1 ≤ 1) ∧
     ((0 : ℚ) ≤ posOf (1/3 : ℚ) 0 2 ∧ posOf (1/3 : ℚ) 0 2 ≤ 2) ∧
     ((0 : ℚ) ≤ posOf (2 : ℚ) 0 3 ∧ posOf (2 : ℚ) 0 3 ≤ 3)) :=
  ⟨⟨by norm_num, by norm_num, by norm_num, by norm_num, by norm_num⟩,
   part_c10_particle_bounds 5 7 2 4 2 3 (1/2) (1/3) 2 0 1 0 2 0 3
     (by norm_num) (by norm_num) (by norm_num) (by norm_num) (by norm_num)⟩
